import Mathlib

set_option maxHeartbeats 1000000
set_option maxRecDepth 100000

/-
Verification development for the illuc task runtime (src-tauri).
Rust strings are modelled as List Char, bytes as Nat, and the registry
map as a function from task ids to optional records.  External effects
(git subprocesses, the filesystem, PTY handles, wall-clock time) are
modelled as explicit oracle inputs.
-/

namespace Illuc

/- ### Generic string helpers (List Char) -/

/-- ASCII core of Rust char::is_whitespace (space, tab, LF, CR). -/
def isWsp (c : Char) : Bool :=
  c == ' ' || c == '\t' || c == '\n' || c == '\r'

/-- Rust str::trim on a char list. -/
def trimChars (l : List Char) : List Char :=
  ((l.dropWhile isWsp).reverse.dropWhile isWsp).reverse

/-- Rust String::pop loop trimming trailing spaces (Screen::full_text). -/
def trimTrailingSpaces (l : List Char) : List Char :=
  (l.reverse.dropWhile (fun c => c == ' ')).reverse

/-- Rust str::starts_with on char lists. -/
def listStartsWith : List Char → List Char → Bool
  | [], _ => true
  | _ :: _, [] => false
  | p :: ps, t :: ts => p == t && listStartsWith ps ts

/-- Rust str::contains (substring search) on char lists. -/
def listContains : List Char → List Char → Bool
  | text, pat =>
    if listStartsWith pat text then true
    else
      match text with
      | [] => false
      | _ :: rest => listContains rest pat

/-- Rust char::to_ascii_lowercase. -/
def toAsciiLower (c : Char) : Char :=
  if 'A' ≤ c && c ≤ 'Z' then Char.ofNat (c.toNat + 32) else c

/-- Rust str::to_ascii_lowercase on char lists. -/
def lowerChars (l : List Char) : List Char :=
  l.map toAsciiLower

/-- Rust str::split(sep) on char lists: splitting an empty string yields
one empty piece, like the Rust iterator. -/
def splitOnChar (sep : Char) : List Char → List (List Char)
  | [] => [[]]
  | c :: rest =>
    if c = sep then [] :: splitOnChar sep rest
    else
      match splitOnChar sep rest with
      | [] => [[c]]
      | h :: t => (c :: h) :: t

/-- Vec::join(sep) on char lists. -/
def joinWith (sep : Char) : List (List Char) → List Char
  | [] => []
  | [w] => w
  | w :: rest => w ++ sep :: joinWith sep rest

/-- Rust str::split_whitespace on char lists: split on whitespace and
drop empty pieces. -/
def splitWhitespaceL (l : List Char) : List (List Char) :=
  (splitOnChar ' ' (l.map (fun c => if isWsp c then ' ' else c))).filter
    (fun w => !w.isEmpty)

/- ### Virtual screen (src/src-tauri/src/tasks/mod.rs, struct Screen) -/

structure Screen where
  rows : Nat
  cols : Nat
  grid : List (List Char)
  cursor_row : Nat
  cursor_col : Nat
deriving Repr, DecidableEq

/-- Screen::new. -/
def Screen.new (rows cols : Nat) : Screen :=
  { rows := rows
    cols := cols
    grid := List.replicate rows (List.replicate cols ' ')
    cursor_row := 0
    cursor_col := 0 }

/-- One iteration of the Screen::scroll_up loop body: grid.remove(0)
followed by pushing a blank bottom row (remove(0) equals List.tail on the
nonempty grids the invariant guarantees). -/
def shiftRows (cols : Nat) : Nat → List (List Char) → List (List Char)
  | 0, g => g
  | n + 1, g => shiftRows cols n (g.tail ++ [List.replicate cols ' '])

/-- Screen::scroll_up: drop top rows, append blank rows, saturating-sub
the cursor row. -/
def Screen.scroll_up (s : Screen) (lines : Nat) : Screen :=
  { s with
    grid := shiftRows s.cols lines s.grid
    cursor_row := s.cursor_row - lines }

/-- Screen::clear_screen. -/
def Screen.clear_screen (s : Screen) : Screen :=
  { s with
    grid := s.grid.map (fun row => row.map (fun _ => ' '))
    cursor_row := 0
    cursor_col := 0 }

/-- Screen::clear_line_from_cursor: blank the cells cursor_col..cols of
the cursor row (the source loop writes spaces at those indices; on the
cols-length rows the shape invariant guarantees, that equals keeping the
first cursor_col cells and padding with spaces up to cols). -/
def Screen.clear_line_from_cursor (s : Screen) : Screen :=
  if s.cursor_row < s.rows then
    { s with
      grid := s.grid.set s.cursor_row
        ((s.grid.getD s.cursor_row []).take s.cursor_col ++
          List.replicate (s.cols - s.cursor_col) ' ') }
  else s

/-- Screen::set_cursor (clamped absolute move; Nat subtraction is the
saturating_sub of the source). -/
def Screen.set_cursor (s : Screen) (row col : Nat) : Screen :=
  { s with
    cursor_row := min row (s.rows - 1)
    cursor_col := min col (s.cols - 1) }

/-- Screen::full_text: rows trimmed of trailing spaces, joined by LF. -/
def Screen.full_text (s : Screen) : List Char :=
  joinWith '\n' (s.grid.map trimTrailingSpaces)

/-- Write one grid cell: grid[r][c] = ch (the caller guards r and c). -/
def setCell (g : List (List Char)) (r c : Nat) (ch : Char) : List (List Char) :=
  g.set r ((g.getD r []).set c ch)

/- ### ScreenPerformer (vte::Perform impl in src/src-tauri/src/tasks/mod.rs) -/

/-- ScreenPerformer::print. -/
def ScreenPerformer.print (s : Screen) (ch : Char) : Screen :=
  let s1 :=
    if s.rows ≤ s.cursor_row then
      let t := s.scroll_up 1
      { t with cursor_row := t.rows - 1 }
    else s
  let s2 :=
    if s1.cols ≤ s1.cursor_col then
      let t := { s1 with cursor_col := 0, cursor_row := s1.cursor_row + 1 }
      if t.rows ≤ t.cursor_row then
        let u := t.scroll_up 1
        { u with cursor_row := u.rows - 1 }
      else t
    else s1
  if s2.cursor_row < s2.rows && s2.cursor_col < s2.cols then
    { s2 with
      grid := setCell s2.grid s2.cursor_row s2.cursor_col ch
      cursor_col := s2.cursor_col + 1 }
  else s2

/-- ScreenPerformer::execute (LF, CR, BS, HT; other C0 bytes ignored). -/
def ScreenPerformer.exec (s : Screen) (byte : Nat) : Screen :=
  if byte = 10 then
    let t := { s with cursor_col := 0, cursor_row := s.cursor_row + 1 }
    if t.rows ≤ t.cursor_row then
      let u := t.scroll_up 1
      { u with cursor_row := u.rows - 1 }
    else t
  else if byte = 13 then { s with cursor_col := 0 }
  else if byte = 8 then
    if 0 < s.cursor_col then { s with cursor_col := s.cursor_col - 1 } else s
  else if byte = 9 then
    { s with cursor_col := min ((s.cursor_col / 8 + 1) * 8) (s.cols - 1) }
  else s

/-- The first_param closure of ScreenPerformer::csi_dispatch: a present
parameter is clamped to at least 1, a missing one yields the default. -/
def first_param (params : List Nat) (idx default : Nat) : Nat :=
  match params.get? idx with
  | some v => max v 1
  | none => default

/-- ScreenPerformer::csi_dispatch.  The B and C arms subtract 1 from rows
and cols exactly as the source does (Nat subtraction truncates where the
Rust usize subtraction would panic at 0). -/
def ScreenPerformer.csi_dispatch (s : Screen) (params : List Nat) (action : Char) :
    Screen :=
  if action = 'A' then
    { s with cursor_row := s.cursor_row - first_param params 0 1 }
  else if action = 'B' then
    { s with cursor_row := min (s.cursor_row + first_param params 0 1) (s.rows - 1) }
  else if action = 'C' then
    { s with cursor_col := min (s.cursor_col + first_param params 0 1) (s.cols - 1) }
  else if action = 'D' then
    { s with cursor_col := s.cursor_col - first_param params 0 1 }
  else if action = 'H' ∨ action = 'f' then
    s.set_cursor (first_param params 0 1 - 1) (first_param params 1 1 - 1)
  else if action = 'J' then
    if first_param params 0 0 = 2 then s.clear_screen else s.clear_line_from_cursor
  else if action = 'K' then s.clear_line_from_cursor
  else s

/-- Events the byte-stream parser dispatches to the performer. -/
inductive ScreenEvent where
  | print (ch : Char)
  | ctrl (byte : Nat)
  | csi (params : List Nat) (action : Char)
deriving Repr, DecidableEq

/-- Dispatch one parser event to the ScreenPerformer handlers. -/
def applyEvent (s : Screen) : ScreenEvent → Screen
  | .print ch => ScreenPerformer.print s ch
  | .ctrl b => ScreenPerformer.exec s b
  | .csi ps a => ScreenPerformer.csi_dispatch s ps a

/- ### Byte-stream parser state machine.
Modelled from the spec: the vte::Parser crate is an external library, not
part of this repository; section 4.A fixes its contract (printable bytes
become print events, C0 controls become execute events, CSI sequences
with numeric parameters become csi events, OSC/DCS/other sequences are
silently consumed). -/

inductive PState where
  | ground
  | esc
  | csiParam (params : List Nat) (cur : Nat) (seen : Bool)
deriving Repr, DecidableEq

/-- One byte of the parser: returns the next parser state and the events
dispatched to the performer. -/
def pstep : PState → Nat → PState × List ScreenEvent
  | .ground, b =>
    if b = 27 then (.esc, [])
    else if b < 32 then (.ground, [.ctrl b])
    else if b ≤ 126 then (.ground, [.print (Char.ofNat b)])
    else (.ground, [])
  | .esc, b =>
    if b = 91 then (.csiParam [] 0 false, [])
    else (.ground, [])
  | .csiParam ps cur seen, b =>
    if 48 ≤ b ∧ b ≤ 57 then (.csiParam ps (cur * 10 + (b - 48)) true, [])
    else if b = 59 then (.csiParam (ps ++ [cur]) 0 true, [])
    else if 64 ≤ b ∧ b ≤ 126 then
      (.ground, [.csi (if seen then ps ++ [cur] else []) (Char.ofNat b)])
    else (.csiParam ps cur seen, [])

/-- parser.advance(&mut performer, byte): one byte through the persistent
parser, events applied to the screen in order. -/
def feedByte (st : PState × Screen) (b : Nat) : PState × Screen :=
  let (ps, evs) := pstep st.1 b
  (ps, evs.foldl applyEvent st.2)

/-- The for-loop of TaskManager::append_terminal_output over a chunk. -/
def feedBytes (st : PState × Screen) (bytes : List Nat) : PState × Screen :=
  bytes.foldl feedByte st

/-- The per-task terminal state a TaskRecord carries: persistent parser,
screen, and the terminal buffer (the UTF-8-lossy decode of the appended
chunk is abstracted to the raw bytes; only the screen is observed by the
claims below). -/
structure TermState where
  parser : PState
  screen : Screen
  terminal_buffer : List Nat
deriving Repr, DecidableEq

/-- TaskManager::append_terminal_output: push the chunk onto the buffer
and advance the persistent parser over each byte. -/
def append_terminal_output (t : TermState) (raw : List Nat) : TermState :=
  let (ps, sc) := feedBytes (t.parser, t.screen) raw
  { parser := ps, screen := sc, terminal_buffer := t.terminal_buffer ++ raw }

/-- A fresh task terminal: fresh parser and a blank screen. -/
def freshTerm (rows cols : Nat) : TermState :=
  { parser := .ground, screen := Screen.new rows cols, terminal_buffer := [] }

/-- Feed a sequence of chunks, as successive reader-loop callbacks do. -/
def feedChunks (t : TermState) (chunks : List (List Nat)) : TermState :=
  chunks.foldl append_terminal_output t

/-- Split a char list on LF; the snapshot "lines" of the spec. -/
def splitNl (l : List Char) : List (List Char) :=
  splitOnChar '\n' l

/- ### Task registry (src/src-tauri/src/tasks/mod.rs, TaskManager) -/

/-- TaskStatus of src/src-tauri/src/tasks/mod.rs. -/
inductive TaskStatus where
  | creatingWorktree
  | ready
  | idle
  | awaitingApproval
  | working
  | completed
  | failed
  | stopped
  | discarded
deriving Repr, DecidableEq

/-- TaskError, restricted to the constructors the modelled operations
produce (payloads of the git and IO variants abstracted away). -/
inductive TaskErrorM where
  | message (text : List Char)
  | gitCommand
  | notFound
  | alreadyRunning
  | notRunning
deriving Repr, DecidableEq

/-- The TaskSummary fields the claims below observe.  Timestamps are
abstract Nat instants supplied by the caller. -/
structure TaskSummaryM where
  status : TaskStatus
  started_at : Option Nat
  ended_at : Option Nat
  exit_code : Option Int
deriving Repr, DecidableEq

/-- TaskRecord: summary, optional runtime handle (the PTY triple is
abstracted to Unit), persistent screen and parser, terminal buffer. -/
structure TaskRecordM where
  summary : TaskSummaryM
  runtime : Option Unit
  screen : Screen
  parser : PState
  terminal_buffer : List Nat
deriving Repr, DecidableEq

/-- The RwLock<HashMap<Uuid, TaskRecord>> registry, as a map. -/
def Registry : Type := Nat → Option TaskRecordM

/-- HashMap::insert / HashMap::remove (remove passes none). -/
def Registry.update (tasks : Registry) (task_id : Nat) (v : Option TaskRecordM) :
    Registry :=
  fun x => if x = task_id then v else tasks x

/-- The empty registry. -/
def Registry.empty : Registry := fun _ => none

/-- TaskManager::finish_task (the handle_agent_exit of the spec): set
exit_code and ended_at, clear the runtime, and resolve the terminal
status by the source's match on the current status. -/
def finish_task (tasks : Registry) (task_id : Nat) (exit_code : Int) (now : Nat) :
    Registry × Except TaskErrorM Unit :=
  match tasks task_id with
  | none => (tasks, .error .notFound)
  | some record =>
    let target_status : TaskStatus :=
      match record.summary.status with
      | .stopped => .stopped
      | .discarded => .discarded
      | .ready => .ready
      | _ => if exit_code = 0 then .completed else .failed
    let summary2 :=
      { record.summary with
        exit_code := some exit_code
        ended_at := some now
        status := target_status }
    (tasks.update task_id (some { record with summary := summary2, runtime := none }),
      .ok ())

/-- TaskManager::stop_task: fail NotFound / NotRunning, kill the child
best-effort (an external effect with no registry footprint), set the
status to Ready and return the summary. -/
def stop_task (tasks : Registry) (task_id : Nat) :
    Registry × Except TaskErrorM TaskSummaryM :=
  match tasks task_id with
  | none => (tasks, .error .notFound)
  | some record =>
    match record.runtime with
    | none => (tasks, .error .notRunning)
    | some _ =>
      let record2 :=
        { record with summary := { record.summary with status := .ready } }
      (tasks.update task_id (some record2), .ok record2.summary)

/-- Outcomes of the external steps TaskManager::create_task performs, in
source order: repo-root resolution, the directory check, repo
validation, rev-parse of the base ref, and worktree add.  The fresh
task id stands in for Uuid::new_v4. -/
structure CreateEnv where
  repoRoot : Except Unit (List Char)
  dirOk : Except Unit Unit
  validOk : Except Unit Unit
  revParse : Except Unit (List Char)
  worktreeAdd : Except Unit Unit
  freshId : Nat

/-- TaskManager::create_task: resolve and validate the repo, resolve the
base commit, require a non-empty trimmed branch name, run worktree add,
and only then insert a fresh record (status Ready, no runtime, blank
40x120 screen, fresh parser, empty buffer).  Every failure leaves the
registry untouched. -/
def create_task (tasks : Registry) (env : CreateEnv)
    (branch_name : Option (List Char)) :
    Registry × Except TaskErrorM Nat :=
  match env.repoRoot with
  | .error _ => (tasks, .error .gitCommand)
  | .ok _ =>
  match env.dirOk with
  | .error _ => (tasks, .error (.message []))
  | .ok _ =>
  match env.validOk with
  | .error _ => (tasks, .error .gitCommand)
  | .ok _ =>
  match env.revParse with
  | .error _ => (tasks, .error .gitCommand)
  | .ok _ =>
  match (branch_name.map trimChars).filter (fun v => !v.isEmpty) with
  | none => (tasks, .error (.message ("Branch name is required.".toList)))
  | some _ =>
  match env.worktreeAdd with
  | .error _ => (tasks, .error .gitCommand)
  | .ok _ =>
    let record : TaskRecordM :=
      { summary :=
          { status := .ready
            started_at := none
            ended_at := none
            exit_code := none }
        runtime := none
        screen := Screen.new 40 120
        parser := .ground
        terminal_buffer := [] }
    (tasks.update env.freshId (some record), .ok env.freshId)

/-- Outcomes of the best-effort external steps of discard_task.  The
function below receives them and ignores them, exactly as the source
discards the Results of worktree remove, branch -D and remove_dir_all. -/
structure DiscardEnv where
  worktreeRemoveOk : Bool
  branchDeleteOk : Bool
  fsRemoveOk : Bool
deriving DecidableEq

/-- TaskManager::discard_task: look the record up, stop it if a runtime
exists (ignoring the result), run the best-effort git and filesystem
teardown (all outcomes ignored), mark the record Discarded, and remove
the registry entry unconditionally. -/
def discard_task (tasks : Registry) (task_id : Nat) (env : DiscardEnv) :
    Registry × Except TaskErrorM Unit :=
  match tasks task_id with
  | none => (tasks, .error .notFound)
  | some record =>
    let tasks1 :=
      if record.runtime.isSome then (stop_task tasks task_id).1 else tasks
    let _ := env.worktreeRemoveOk
    let _ := env.branchDeleteOk
    let _ := env.fsRemoveOk
    let tasks2 :=
      match tasks1 task_id with
      | some r =>
        tasks1.update task_id
          (some { r with
                  summary := { r.summary with status := .discarded }
                  runtime := none })
      | none => tasks1
    (tasks2.update task_id none, .ok ())

/- ### Codex agent (src/src-tauri/src/agents/codex/mod.rs) -/

/-- The three startup latches of CodexAgentState. -/
structure CodexStartupState where
  sent_resume_enter : Bool
  sent_no_sessions_escape : Bool
  pending_no_sessions_check : Bool
deriving Repr, DecidableEq

/-- Fresh latches, as CodexAgent::default and reset leave them. -/
def freshStartup : CodexStartupState :=
  { sent_resume_enter := false
    sent_no_sessions_escape := false
    pending_no_sessions_check := false }

/-- CodexAgent::handle_startup_sequence on one (already lowercased)
snapshot.  lockOk is the outcome of the writer try_lock; the bytes
written to the PTY are returned (13 is CR).  The writer is installed for
the whole session, so its presence is not modelled. -/
def handle_startup_sequence (st : CodexStartupState) (screen_text : List Char)
    (lockOk : Bool) : CodexStartupState × List Nat :=
  let resume_prompt := listContains screen_text ("resume a previous session".toList)
  let no_sessions := listContains screen_text ("no sessions yet".toList)
  if resume_prompt && !no_sessions && !st.sent_resume_enter &&
      !st.sent_no_sessions_escape then
    ({ st with sent_resume_enter := true }, if lockOk then [13] else [])
  else if resume_prompt && no_sessions && !st.sent_no_sessions_escape &&
      !st.pending_no_sessions_check then
    ({ st with pending_no_sessions_check := true }, [])
  else (st, [])

/-- The delayed 1-second re-check thread spawned by the second branch of
handle_startup_sequence: if the snapshot still shows "no sessions yet",
latch both flags and send ESC (27) once; always clear the pending flag. -/
def no_sessions_recheck (st : CodexStartupState) (screen_text : List Char)
    (lockOk : Bool) : CodexStartupState × List Nat :=
  if listContains screen_text ("no sessions yet".toList) then
    ({ st with
        sent_no_sessions_escape := true
        sent_resume_enter := true
        pending_no_sessions_check := false },
      if lockOk then [27] else [])
  else ({ st with pending_no_sessions_check := false }, [])

/-- The observable events of a Codex session touching the startup state:
a reader chunk whose snapshot is screen_text, or the firing of a delayed
no-sessions re-check reading screen_text. -/
inductive CodexEvent where
  | chunk (screen_text : List Char) (lockOk : Bool)
  | recheck (screen_text : List Char) (lockOk : Bool)
deriving Repr, DecidableEq

/-- One session event against the startup latches. -/
def codexStep (st : CodexStartupState) : CodexEvent → CodexStartupState × List Nat
  | .chunk t lk => handle_startup_sequence st t lk
  | .recheck t lk => no_sessions_recheck st t lk

/-- Run a whole session event trace, concatenating the PTY writes. -/
def codexRun (st : CodexStartupState) : List CodexEvent → CodexStartupState × List Nat
  | [] => (st, [])
  | e :: rest =>
    let (st1, w) := codexStep st e
    let (st2, ws) := codexRun st1 rest
    (st2, w ++ ws)

/-- The mutable CodexAgentState observed by status_from_output. -/
structure CodexAgentState where
  screen : Screen
  parser : PState
  last_status : Option TaskStatus
  prompt_active : Bool
  startup : CodexStartupState
deriving Repr, DecidableEq

/-- CodexAgent::default state at the 40x120 default size. -/
def freshCodexAgent : CodexAgentState :=
  { screen := Screen.new 40 120
    parser := .ground
    last_status := none
    prompt_active := false
    startup := freshStartup }

/-- The approval prompt constant. -/
def APPROVAL_PROMPT : List Char :=
  "would you like to run the following command".toList

/-- The status CodexAgent::status_from_output infers from the
accumulated screen after feeding a chunk. -/
def codexInferred (st : CodexAgentState) (raw : List Nat) : TaskStatus :=
  if listContains
      (lowerChars (feedBytes (st.parser, st.screen) raw).2.full_text)
      APPROVAL_PROMPT then
    .awaitingApproval
  else .working

/-- CodexAgent::status_from_output: feed the chunk into the persistent
screen, infer AwaitingApproval or Working from the accumulated snapshot,
record it in last_status, run the startup automation on the snapshot,
and return Some status only when it differs from last_status. -/
def codex_status_from_output (st : CodexAgentState) (raw : List Nat)
    (lockOk : Bool) : Option TaskStatus × CodexAgentState × List Nat :=
  let fed := feedBytes (st.parser, st.screen) raw
  let screen_text := lowerChars fed.2.full_text
  let prompt_now := listContains screen_text APPROVAL_PROMPT
  let status : TaskStatus := if prompt_now then .awaitingApproval else .working
  let changed : Bool := decide (st.last_status ≠ some status)
  let last2 := if changed then some status else st.last_status
  let stepped := handle_startup_sequence st.startup screen_text lockOk
  (if changed then some status else none,
    { screen := fed.2
      parser := fed.1
      last_status := last2
      prompt_active := prompt_now
      startup := stepped.1 },
    stepped.2)

/- ### Copilot agent (src/src-tauri/src/features/tasks/agents/copilot/mod.rs) -/

/-- CopilotAgentState, with the utils::screen Screen (whose source file
is not part of this tree) modelled from the spec by the same virtual
screen contract of section 4.A. -/
structure CopilotAgentState where
  screen : Screen
  parser : PState
  last_status : Option TaskStatus
deriving Repr, DecidableEq

/-- CopilotAgent::default state at the 40x80 default size. -/
def freshCopilotAgent : CopilotAgentState :=
  { screen := Screen.new 40 80, parser := .ground, last_status := none }

/-- CopilotAgent::status_from_output: feed the chunk, infer Working
unconditionally, return Some Working only when last_status changes. -/
def copilot_status_from_output (st : CopilotAgentState) (raw : List Nat) :
    Option TaskStatus × CopilotAgentState :=
  let fed := feedBytes (st.parser, st.screen) raw
  let status : TaskStatus := .working
  let changed : Bool := decide (st.last_status ≠ some status)
  let last2 := if changed then some status else st.last_status
  (if changed then some status else none,
    { screen := fed.2, parser := fed.1, last_status := last2 })

/- ### Copilot session discovery (src/src-tauri/src/features/tasks/agents/copilot/mod.rs) -/

/-- One line of a session file after the serde_json parse: whether the
parse succeeded, and the string values at "type", data.sessionId and
"timestamp" when present (the JSON library itself is external). -/
structure SessionLine where
  parsed : Bool
  type_field : Option (List Char)
  data_session_id : Option (List Char)
  timestamp : Option (List Char)
deriving Repr, DecidableEq

/-- A directory entry: the file stem, the raw text, its parsed lines,
and whether the entry is a regular file. -/
structure SessionFile where
  stem : Option (List Char)
  content : List Char
  lines : List SessionLine
  isFile : Bool
deriving Repr, DecidableEq

/-- A discovered session candidate. -/
structure SessionCandidateM where
  session_id : List Char
  timestamp : Option Nat
deriving Repr, DecidableEq

/-- The line fold inside parse_session_file: keep the first sessionId
carried by a session.start line, and the maximum parsed timestamp (ties
keep the earlier one).  pts abstracts the external chrono parsing of
parse_timestamp into an ordered key. -/
def sessionLineStep (pts : List Char → Option Nat)
    (acc : Option (List Char) × Option Nat) (line : SessionLine) :
    Option (List Char) × Option Nat :=
  if !line.parsed then acc
  else
    let sid :=
      match acc.1 with
      | some s => some s
      | none =>
        if line.type_field = some ("session.start".toList) then
          match line.data_session_id with
          | some id => some id
          | none => none
        else none
    let ts :=
      match line.timestamp.bind pts with
      | some t =>
        match acc.2 with
        | some cur => if t ≤ cur then some cur else some t
        | none => some t
      | none => acc.2
    (sid, ts)

/-- parse_session_file: a file is a candidate iff its text contains the
canonical working-copy path; its id comes from the line fold with the
file stem as fallback, its timestamp is the fold's maximum. -/
def parse_session_file (pts : List Char → Option Nat) (f : SessionFile)
    (desired_cwd : List Char) : Option SessionCandidateM :=
  if !listContains f.content desired_cwd then none
  else
    let folded := f.lines.foldl (sessionLineStep pts) (none, none)
    match (match folded.1 with | some s => some s | none => f.stem) with
    | none => none
    | some s => some { session_id := s, timestamp := folded.2 }

/-- The replacement rule of find_latest_session_in_dir: a new candidate
with a timestamp beats an absent best, a best without a timestamp, or a
strictly smaller best timestamp; a candidate without a timestamp only
fills an absent best. -/
def candidateBeats (cand : SessionCandidateM) (best : Option SessionCandidateM) :
    Bool :=
  match cand.timestamp, best with
  | some cts, some b =>
    match b.timestamp with
    | some bts => decide (bts < cts)
    | none => true
  | some _, none => true
  | none, some _ => false
  | none, none => true

/-- The body of the find_latest_session_in_dir entry loop: regular
files that parse into candidates replace the best according to
candidateBeats. -/
def dirScanStep (pts : List Char → Option Nat) (desired_cwd : List Char)
    (best : Option SessionCandidateM) (f : SessionFile) :
    Option SessionCandidateM :=
  if f.isFile then
    match parse_session_file pts f desired_cwd with
    | some cand => if candidateBeats cand best then some cand else best
    | none => best
  else best

/-- find_latest_session_in_dir: fold the directory entries, keeping the
best candidate, and return its session id. -/
def find_latest_session_in_dir (pts : List Char → Option Nat)
    (files : List SessionFile) (desired_cwd : List Char) : Option (List Char) :=
  (files.foldl (dirScanStep pts desired_cwd) none).map (fun c => c.session_id)

/-- find_latest_session_id: scan the primary directory, and only when it
yields nothing, the legacy directory. -/
def find_latest_session_id (pts : List Char → Option Nat)
    (primary legacy : List SessionFile) (desired_cwd : List Char) :
    Option (List Char) :=
  match find_latest_session_in_dir pts primary desired_cwd with
  | some sid => some sid
  | none => find_latest_session_in_dir pts legacy desired_cwd

/- ### Branch-title heuristic (src/src-tauri/src/features/tasks/worktree.rs,
identical copy in src/src-tauri/src/tasks/mod.rs) -/

/-- The digit-run scanner of extract_task_and_label, recursing on an
explicit fuel so that it stays structurally recursive (every step
consumes at least one character, so a fuel of the list length always
suffices): find the first maximal run of at least 3 ASCII digits,
returning its half-open char range; shorter runs are skipped whole. -/
def scanDigitRunF : Nat → List Char → Nat → Option (Nat × Nat)
  | 0, _, _ => none
  | _ + 1, [], _ => none
  | fuel + 1, c :: rest, i =>
    if c.isDigit then
      let runLen := 1 + (rest.takeWhile Char.isDigit).length
      if 3 ≤ runLen then some (i, i + runLen)
      else scanDigitRunF fuel (rest.dropWhile Char.isDigit) (i + runLen)
    else scanDigitRunF fuel rest (i + 1)

/-- The digit-run scanner at its canonical fuel. -/
def scanDigitRun (l : List Char) (i : Nat) : Option (Nat × Nat) :=
  scanDigitRunF l.length l i

/-- Uppercase the first char, ASCII-lowercase the rest (the word mapper
of extract_task_and_label; the unicode case maps of the source agree
with the ASCII ones on every ASCII word). -/
def titleCaseWord : List Char → List Char
  | [] => []
  | c :: rest =>
    (if 'a' ≤ c && c ≤ 'z' then Char.ofNat (c.toNat - 32) else c) ::
      rest.map toAsciiLower

/-- Split on whitespace, title-case each word, join with single spaces. -/
def titleWords (l : List Char) : List Char :=
  joinWith ' ' ((splitWhitespaceL l).map titleCaseWord)

/-- Replace '-' and '_' by spaces. -/
def dashToSpace (c : Char) : Char :=
  if c = '-' ∨ c = '_' then ' ' else c

/-- Replace '/', '-' and '_' by spaces. -/
def slashDashToSpace (c : Char) : Char :=
  if c = '/' ∨ c = '-' ∨ c = '_' then ' ' else c

/-- extract_task_and_label: find the digit run, cut it out of the slug
replacing it by one space, build the label from the remainder with '-'
and '_' as separators, and fall back to the whole slug (with '/' also a
separator) when the label would be empty; the label is trimmed. -/
def extract_task_and_label (slug : List Char) :
    Option (List Char) × List Char :=
  let range := scanDigitRun slug 0
  let task_id :=
    match range with
    | some (s, e) => some ((slug.drop s).take (e - s))
    | none => none
  let remainder :=
    match range with
    | some (s, e) => slug.take s ++ ' ' :: slug.drop e
    | none => slug
  let cleaned := titleWords (remainder.map dashToSpace)
  let label :=
    if cleaned.isEmpty then titleWords (slug.map slashDashToSpace)
    else cleaned
  (task_id, trimChars label)

/-- The last '/'-segment of a branch name (str::split('/').last()). -/
def lastSegment (branch : List Char) : List Char :=
  match (splitOnChar '/' branch).getLast? with
  | some s => s
  | none => branch

/-- format_title_from_branch: last segment, extract task and label, and
bracket the task id at the front when present. -/
def format_title_from_branch (branch : List Char) : List Char :=
  let slug := lastSegment branch
  let (task_id, label) := extract_task_and_label slug
  match task_id with
  | some task => '[' :: task ++ ']' :: ' ' :: label
  | none => label

/- ### Statement-support definitions -/

/-- The screen well-formedness invariant carried through feeding: fixed
shape, in-range cursor (the column may rest one past the last cell, as
the source allows), and no LF stored in any cell. -/
def ScreenInv (rows cols : Nat) (s : Screen) : Prop :=
  s.rows = rows ∧ s.cols = cols ∧ 1 ≤ rows ∧ 1 ≤ cols ∧
    s.grid.length = rows ∧ (∀ row ∈ s.grid, row.length = cols) ∧
    s.cursor_row < rows ∧ s.cursor_col ≤ cols ∧
    (∀ row ∈ s.grid, '\n' ∉ row)

/-- An event that never prints a LF character (every event the parser
model emits satisfies this, since LF is dispatched as a control byte). -/
def EventPrintable (e : ScreenEvent) : Prop :=
  ∀ ch, e = ScreenEvent.print ch → ch ≠ '\n'

/-- The screen left by feeding a byte sequence into a fresh screen. -/
def screenAfter (rows cols : Nat) (bytes : List Nat) : Screen :=
  (feedBytes (PState.ground, Screen.new rows cols) bytes).2

/-- The snapshot after feeding a chunk sequence into a fresh task
terminal. -/
def snapshotAfter (rows cols : Nat) (chunks : List (List Nat)) : List Char :=
  (feedChunks (freshTerm rows cols) chunks).screen.full_text

/-- The record create_task inserts on success. -/
def freshTaskRecord : TaskRecordM :=
  { summary :=
      { status := .ready
        started_at := none
        ended_at := none
        exit_code := none }
    runtime := none
    screen := Screen.new 40 120
    parser := .ground
    terminal_buffer := [] }

/-- A rotation of the approval prompt: it does not contain the prompt,
but its square does. -/
def promptRotationChunk : List Nat :=
  ("commandwould you like to run the following ".toList).map Char.toNat

/-- The timestamp order of session discovery: no timestamp is below
every timestamp, timestamps compare by their parsed key. -/
def tsLeB : Option Nat → Option Nat → Bool
  | none, _ => true
  | some _, none => false
  | some x, some y => decide (x ≤ y)

/-- The session id a single line contributes: the data.sessionId of a
parsed session.start line carrying one. -/
def lineSessionId (l : SessionLine) : Option (List Char) :=
  if !l.parsed then none
  else if l.type_field = some ("session.start".toList) then
    match l.data_session_id with
    | some id => some id
    | none => none
  else none

/-- A candidate produced by some regular file of a directory. -/
def IsCand (pts : List Char → Option Nat) (cwd : List Char)
    (files : List SessionFile) (c : SessionCandidateM) : Prop :=
  ∃ f ∈ files, f.isFile = true ∧ parse_session_file pts f cwd = some c

/-- The title formatter exactly as claim C9 words it: take the last
segment, render the first run of at least 3 digits bracketed at the
front, split the remaining text (the slug with the run deleted) on '-'
and '_' only, title-case each word and join with single spaces. -/
def format_title_claimC9 (branch : List Char) : List Char :=
  let slug := lastSegment branch
  let range := scanDigitRun slug 0
  match range with
  | some (s, e) =>
    let task := (slug.drop s).take (e - s)
    let remaining := slug.take s ++ slug.drop e
    let label :=
      joinWith ' '
        (((splitOnChar '-' remaining).flatMap (splitOnChar '_')).filter
            (fun w => !w.isEmpty) |>.map titleCaseWord)
    '[' :: task ++ ']' :: ' ' :: label
  | none =>
    joinWith ' '
      (((splitOnChar '-' slug).flatMap (splitOnChar '_')).filter
          (fun w => !w.isEmpty) |>.map titleCaseWord)

/-- The title formatter as claim C9 reads after amendment: the digit run
is replaced by a single space (so it separates words), the remaining
text is split on whitespace, '-' and '_', and an empty label falls back
to the whole segment with '/', '-' and '_' as separators; the label is
trimmed. -/
def format_title_amendedC9 (branch : List Char) : List Char :=
  let slug := lastSegment branch
  match scanDigitRun slug 0 with
  | some (s, e) =>
    let task := (slug.drop s).take (e - s)
    let label0 :=
      joinWith ' '
        ((splitWhitespaceL ((slug.take s ++ ' ' :: slug.drop e).map dashToSpace)).map
          titleCaseWord)
    let label :=
      if label0.isEmpty then titleWords (slug.map slashDashToSpace) else label0
    '[' :: task ++ ']' :: ' ' :: trimChars label
  | none =>
    let label0 := titleWords (slug.map dashToSpace)
    let label :=
      if label0.isEmpty then titleWords (slug.map slashDashToSpace) else label0
    trimChars label

/-- A session file whose first session.start line carries no sessionId
while a later one does. -/
def sessionFileTwoStarts : SessionFile :=
  { stem := some ("stem0".toList)
    content := "/work/x".toList
    lines :=
      [ { parsed := true
          type_field := some ("session.start".toList)
          data_session_id := none
          timestamp := none },
        { parsed := true
          type_field := some ("session.start".toList)
          data_session_id := some ("b".toList)
          timestamp := none } ]
    isFile := true }

/-- A concrete running record for witnesses: status Idle with an
installed runtime, as start_task leaves a task. -/
def sampleRunningRecord : TaskRecordM :=
  { summary :=
      { status := .idle
        started_at := some 1
        ended_at := none
        exit_code := none }
    runtime := some ()
    screen := Screen.new 40 120
    parser := .ground
    terminal_buffer := [] }

/-- A registry holding the sample running record under id 1. -/
def sampleRegistry : Registry :=
  Registry.empty.update 1 (some sampleRunningRecord)

/-- A create environment whose external steps all succeed. -/
def sampleCreateEnv : CreateEnv :=
  { repoRoot := .ok []
    dirOk := .ok ()
    validOk := .ok ()
    revParse := .ok []
    worktreeAdd := .ok ()
    freshId := 7 }

/- ### Generic lemmas -/

theorem foldl_preserves {α β : Type _} {P : α → Prop} (f : α → β → α)
    (h : ∀ a b, P a → P (f a b)) :
    ∀ (l : List β) (a : α), P a → P (l.foldl f a)
  | [], _, ha => ha
  | b :: l, a, ha => foldl_preserves f h l (f a b) (h a b ha)

/- ### Screen invariant lemmas -/

theorem shiftRows_length (cols : Nat) :
    ∀ (n : Nat) (g : List (List Char)), 1 ≤ g.length →
      (shiftRows cols n g).length = g.length
  | 0, _, _ => rfl
  | n + 1, g, hg => by
    have hstep : (g.tail ++ [List.replicate cols ' ']).length = g.length := by
      cases g with
      | nil => simp at hg
      | cons a as => simp
    have h1 : 1 ≤ (g.tail ++ [List.replicate cols ' ']).length := by
      simp
    rw [shiftRows, shiftRows_length cols n _ h1, hstep]

theorem shiftRows_forall {P : List Char → Prop} (cols : Nat)
    (hrep : P (List.replicate cols ' ')) :
    ∀ (n : Nat) (g : List (List Char)), (∀ r ∈ g, P r) →
      ∀ r ∈ shiftRows cols n g, P r
  | 0, _, hg => hg
  | n + 1, g, hg => by
    rw [shiftRows]
    apply shiftRows_forall cols hrep n
    intro r hr
    rcases List.mem_append.mp hr with h | h
    · exact hg r (List.mem_of_mem_tail h)
    · simpa using (List.mem_singleton.mp h) ▸ hrep

theorem setCell_length (g : List (List Char)) (i j : Nat) (ch : Char) :
    (setCell g i j ch).length = g.length := by
  simp [setCell]

theorem setCell_forall {P : List Char → Prop} {g : List (List Char)}
    (i j : Nat) (ch : Char) (hg : ∀ r ∈ g, P r)
    (hset : ∀ row, P row → P (row.set j ch)) (hi : i < g.length) :
    ∀ r ∈ setCell g i j ch, P r := by
  intro r hr
  rcases List.mem_or_eq_of_mem_set hr with h | h
  · exact hg r h
  · subst h
    have hmem : g.getD i [] ∈ g := by
      rw [List.getD_eq_getElem _ _ hi]
      exact List.getElem_mem hi
    exact hset _ (hg _ hmem)

theorem not_mem_set {row : List Char} {a ch : Char} (j : Nat)
    (h : a ∉ row) (hch : a ≠ ch) : a ∉ row.set j ch := by
  intro hmem
  rcases List.mem_or_eq_of_mem_set hmem with hm | hm
  · exact h hm
  · exact hch hm

/-- Rebuild the invariant for a screen whose rows and cols fields are
untouched. -/
theorem screenInv_of {rows cols : Nat} {s : Screen}
    (h : ScreenInv rows cols s) {g2 : List (List Char)} {r2 c2 : Nat}
    (hlen : g2.length = rows) (hrow : ∀ row ∈ g2, row.length = cols)
    (hnl : ∀ row ∈ g2, '\n' ∉ row) (hr2 : r2 < rows) (hc2 : c2 ≤ cols) :
    ScreenInv rows cols { s with grid := g2, cursor_row := r2, cursor_col := c2 } := by
  obtain ⟨h1, h2, h3, h4, _, _, _, _, _⟩ := h
  exact ⟨h1, h2, h3, h4, hlen, hrow, hr2, hc2, hnl⟩

theorem grid_set_row_len {cols : Nat} {g : List (List Char)}
    (hrow : ∀ row ∈ g, row.length = cols) (j : Nat) (ch : Char) :
    ∀ row ∈ g, (row.set j ch).length = cols := by
  intro row hr
  rw [List.length_set]
  exact hrow row hr

theorem setCell_inv {rows cols : Nat} {s : Screen} {i j : Nat} (ch : Char)
    (hch : ch ≠ '\n') (h : ScreenInv rows cols s) (hi : i < rows)
    (r2 c2 : Nat) (hr2 : r2 < rows) (hc2 : c2 ≤ cols) :
    ScreenInv rows cols
      { s with grid := setCell s.grid i j ch, cursor_row := r2, cursor_col := c2 } := by
  obtain ⟨h1, h2, h3, h4, hlen, hrowlen, hcr, hcc, hnl⟩ := id h
  have hig : i < s.grid.length := by rw [hlen]; exact hi
  refine screenInv_of h ?_ ?_ ?_ hr2 hc2
  · rw [setCell_length, hlen]
  · exact setCell_forall i j ch hrowlen
      (fun row hr => by rw [List.length_set]; exact hr) hig
  · exact setCell_forall i j ch hnl
      (fun row hr => not_mem_set j hr (Ne.symm hch)) hig

theorem scrollGrid_inv {rows cols : Nat} {s : Screen}
    (h : ScreenInv rows cols s) (n : Nat) (r2 c2 : Nat)
    (hr2 : r2 < rows) (hc2 : c2 ≤ cols) :
    ScreenInv rows cols
      { s with grid := shiftRows s.cols n s.grid, cursor_row := r2, cursor_col := c2 } := by
  obtain ⟨h1, h2, h3, h4, hlen, hrowlen, hcr, hcc, hnl⟩ := id h
  have hg1 : 1 ≤ s.grid.length := by rw [hlen]; exact h3
  refine screenInv_of h ?_ ?_ ?_ hr2 hc2
  · rw [shiftRows_length _ _ _ hg1, hlen]
  · exact shiftRows_forall s.cols (by rw [List.length_replicate, h2]) n s.grid
      hrowlen
  · exact shiftRows_forall s.cols (by simp) n s.grid hnl

theorem cursor_inv {rows cols : Nat} {s : Screen}
    (h : ScreenInv rows cols s) (r2 c2 : Nat) (hr2 : r2 < rows) (hc2 : c2 ≤ cols) :
    ScreenInv rows cols { s with cursor_row := r2, cursor_col := c2 } := by
  obtain ⟨h1, h2, h3, h4, hlen, hrowlen, hcr, hcc, hnl⟩ := id h
  exact screenInv_of h hlen hrowlen hnl hr2 hc2

theorem print_inv {rows cols : Nat} {s : Screen} (ch : Char) (hch : ch ≠ '\n')
    (h : ScreenInv rows cols s) :
    ScreenInv rows cols (ScreenPerformer.print s ch) := by
  obtain ⟨h1, h2, h3, h4, hlen, hrowlen, hcr, hcc, hnl⟩ := id h
  subst h1
  subst h2
  have hno : ¬ s.rows ≤ s.cursor_row := by omega
  by_cases hwrap : s.cols ≤ s.cursor_col
  · by_cases hbot : s.rows ≤ s.cursor_row + 1
    · have hg1 : s.rows - 1 < s.rows := by omega
      have hg2 : 0 < s.cols := by omega
      simp only [ScreenPerformer.print, Screen.scroll_up, hno, hwrap, hbot,
        if_true, if_false, ite_true, ite_false, hg1, hg2, decide_True,
        Bool.and_self, Bool.and_true, Bool.true_and, decide_eq_true_eq]
      exact setCell_inv ch hch
        (scrollGrid_inv h 1 (s.rows - 1) 0 (by omega) (by omega))
        (by omega) _ _ (by omega) (by omega)
    · have hg1 : s.cursor_row + 1 < s.rows := by omega
      have hg2 : 0 < s.cols := by omega
      simp only [ScreenPerformer.print, Screen.scroll_up, hno, hwrap, hbot,
        if_true, if_false, ite_true, ite_false, hg1, hg2, decide_True,
        Bool.and_self, Bool.and_true, Bool.true_and, decide_eq_true_eq]
      exact setCell_inv ch hch
        (cursor_inv h (s.cursor_row + 1) 0 (by omega) (by omega))
        (by omega) _ _ (by omega) (by omega)
  · have hg2 : s.cursor_col < s.cols := by omega
    simp only [ScreenPerformer.print, Screen.scroll_up, hno, hwrap, hcr, hg2,
      if_true, if_false, ite_true, ite_false, decide_True,
      Bool.and_self, Bool.and_true, Bool.true_and, decide_eq_true_eq]
    exact setCell_inv ch hch (cursor_inv h s.cursor_row s.cursor_col hcr hcc)
      hcr _ _ hcr (by omega)

theorem exec_inv {rows cols : Nat} {s : Screen} (byte : Nat)
    (h : ScreenInv rows cols s) :
    ScreenInv rows cols (ScreenPerformer.exec s byte) := by
  obtain ⟨h1, h2, h3, h4, hlen, hrowlen, hcr, hcc, hnl⟩ := id h
  subst h1
  subst h2
  by_cases h10 : byte = 10
  · by_cases hbot : s.rows ≤ s.cursor_row + 1
    · simp only [ScreenPerformer.exec, Screen.scroll_up, h10, hbot,
        if_true, if_false, ite_true, ite_false]
      exact scrollGrid_inv h 1 (s.rows - 1) 0 (by omega) (by omega)
    · simp only [ScreenPerformer.exec, Screen.scroll_up, h10, hbot,
        if_true, if_false, ite_true, ite_false]
      exact cursor_inv h (s.cursor_row + 1) 0 (by omega) (by omega)
  · simp only [ScreenPerformer.exec, h10, if_false, ite_false]
    by_cases h13 : byte = 13
    · simp only [h13, if_true, ite_true]
      exact cursor_inv h s.cursor_row 0 hcr (by omega)
    · simp only [h13, if_false, ite_false]
      by_cases h8 : byte = 8
      · simp only [h8, if_true, ite_true]
        by_cases hpos : 0 < s.cursor_col
        · simp only [hpos, if_true, ite_true]
          exact cursor_inv h s.cursor_row (s.cursor_col - 1) hcr (by omega)
        · simp only [hpos, if_false, ite_false]
          exact h
      · simp only [h8, if_false, ite_false]
        by_cases h9 : byte = 9
        · simp only [h9, if_true, ite_true]
          exact cursor_inv h s.cursor_row
            (min ((s.cursor_col / 8 + 1) * 8) (s.cols - 1)) hcr (by omega)
        · simp only [h9, if_false, ite_false]
          exact h

theorem clear_screen_inv {rows cols : Nat} {s : Screen}
    (h : ScreenInv rows cols s) :
    ScreenInv rows cols s.clear_screen := by
  obtain ⟨h1, h2, h3, h4, hlen, hrowlen, hcr, hcc, hnl⟩ := id h
  unfold Screen.clear_screen
  refine screenInv_of h ?_ ?_ ?_ (by omega) (by omega)
  · rw [List.length_map]; exact hlen
  · intro row hrow
    obtain ⟨orig, horig, rfl⟩ := List.mem_map.mp hrow
    rw [List.length_map]
    exact hrowlen orig horig
  · intro row hrow
    obtain ⟨orig, _, rfl⟩ := List.mem_map.mp hrow
    intro hmem
    obtain ⟨_, _, habs⟩ := List.mem_map.mp hmem
    exact (by decide : (' ' : Char) ≠ '\n') habs

theorem clear_line_inv {rows cols : Nat} {s : Screen}
    (h : ScreenInv rows cols s) :
    ScreenInv rows cols s.clear_line_from_cursor := by
  obtain ⟨h1, h2, h3, h4, hlen, hrowlen, hcr, hcc, hnl⟩ := id h
  unfold Screen.clear_line_from_cursor
  by_cases hlt : s.cursor_row < s.rows
  · rw [if_pos hlt]
    have hig : s.cursor_row < s.grid.length := by rw [hlen, ← h1]; exact hlt
    have hmemD : s.grid.getD s.cursor_row [] ∈ s.grid := by
      rw [List.getD_eq_getElem _ _ hig]
      exact List.getElem_mem hig
    refine screenInv_of h ?_ ?_ ?_ hcr hcc
    · rw [List.length_set]; exact hlen
    · intro row hrow
      rcases List.mem_or_eq_of_mem_set hrow with hm | hm
      · exact hrowlen row hm
      · subst hm
        rw [List.length_append, List.length_take, List.length_replicate]
        have hD : (s.grid.getD s.cursor_row []).length = cols := hrowlen _ hmemD
        rw [hD]
        have : s.cursor_col ≤ cols := hcc
        omega
    · intro row hrow
      rcases List.mem_or_eq_of_mem_set hrow with hm | hm
      · exact hnl row hm
      · subst hm
        intro hmem
        rcases List.mem_append.mp hmem with hm2 | hm2
        · exact hnl _ hmemD (List.mem_of_mem_take hm2)
        · exact (by decide : ('\n' : Char) ≠ ' ') (List.eq_of_mem_replicate hm2)
  · rw [if_neg hlt]
    exact h

theorem csi_inv {rows cols : Nat} {s : Screen} (params : List Nat)
    (action : Char) (h : ScreenInv rows cols s) :
    ScreenInv rows cols (ScreenPerformer.csi_dispatch s params action) := by
  obtain ⟨h1, h2, h3, h4, hlen, hrowlen, hcr, hcc, hnl⟩ := id h
  unfold ScreenPerformer.csi_dispatch
  split
  · exact cursor_inv h _ _ (by omega) hcc
  · split
    · exact cursor_inv h _ _ (by subst h1; omega) hcc
    · split
      · exact cursor_inv h _ _ hcr (by subst h2; omega)
      · split
        · exact cursor_inv h _ _ hcr (by omega)
        · split
          · unfold Screen.set_cursor
            exact cursor_inv h _ _ (by subst h1; omega) (by subst h2; omega)
          · split
            · split
              · exact clear_screen_inv h
              · exact clear_line_inv h
            · split
              · exact clear_line_inv h
              · exact h

theorem applyEvent_inv {rows cols : Nat} {s : Screen} {e : ScreenEvent}
    (he : EventPrintable e) (h : ScreenInv rows cols s) :
    ScreenInv rows cols (applyEvent s e) := by
  cases e with
  | print ch => exact print_inv ch (he ch rfl) h
  | ctrl b => exact exec_inv b h
  | csi ps a => exact csi_inv ps a h

theorem charOfNat_toNat {b : Nat} (h1 : 32 ≤ b) (h2 : b ≤ 126) :
    (Char.ofNat b).toNat = b := by
  have hv : b.isValidChar := Or.inl (by omega)
  rw [Char.ofNat, dif_pos hv]
  show (UInt32.ofNatCore b _).toNat = b
  simp [UInt32.toNat, UInt32.ofNatCore, BitVec.ofNat]

theorem charOfNat_ne_nl {b : Nat} (h1 : 32 ≤ b) (h2 : b ≤ 126) :
    Char.ofNat b ≠ '\n' := by
  intro h
  have hx := charOfNat_toNat h1 h2
  rw [h] at hx
  have hln : ('\n').toNat = 10 := rfl
  omega

theorem pstep_printable (p : PState) (b : Nat) :
    ∀ e ∈ (pstep p b).2, EventPrintable e := by
  cases p with
  | ground =>
    by_cases h27 : b = 27
    · simp [pstep, h27, EventPrintable]
    · by_cases h32 : b < 32
      · simp only [pstep, h27, h32, if_true, if_false, ite_true, ite_false]
        intro e he
        simp at he
        subst he
        intro ch hch
        exact absurd hch (by simp)
      · by_cases h126 : b ≤ 126
        · simp only [pstep, h27, h32, h126, if_true, if_false, ite_true, ite_false]
          intro e he
          simp at he
          subst he
          intro ch hch
          cases hch
          exact charOfNat_ne_nl (by omega) h126
        · simp [pstep, h27, h32, h126]
  | esc =>
    by_cases h : b = 91 <;> simp [pstep, h]
  | csiParam ps cur seen =>
    by_cases hd : 48 ≤ b ∧ b ≤ 57
    · simp [pstep, hd]
    · by_cases hsemi : b = 59
      · simp [pstep, hd, hsemi]
      · by_cases hfin : 64 ≤ b ∧ b ≤ 126
        · simp only [pstep, hd, hsemi, hfin, if_true, if_false, ite_true, ite_false]
          intro e he
          simp at he
          subst he
          intro ch hch
          exact absurd hch (by simp)
        · simp [pstep, hd, hsemi, hfin]

theorem feedByte_inv {rows cols : Nat} {st : PState × Screen} (b : Nat)
    (h : ScreenInv rows cols st.2) :
    ScreenInv rows cols (feedByte st b).2 := by
  unfold feedByte
  have hall := pstep_printable st.1 b
  revert hall
  generalize (pstep st.1 b) = pr
  intro hall
  obtain ⟨p2, evs⟩ := pr
  simp only
  induction evs generalizing st with
  | nil => exact h
  | cons e rest ih =>
    have he : EventPrintable e := hall e (by simp)
    have hrest : ∀ x ∈ rest, EventPrintable x := fun x hx => hall x (by simp [hx])
    simp only [List.foldl_cons]
    exact @ih (p2, applyEvent st.2 e) (applyEvent_inv he h) hrest

theorem feedBytes_inv {rows cols : Nat} {st : PState × Screen}
    (bytes : List Nat) (h : ScreenInv rows cols st.2) :
    ScreenInv rows cols (feedBytes st bytes).2 := by
  unfold feedBytes
  exact foldl_preserves (P := fun st => ScreenInv rows cols st.2) feedByte
    (fun a b ha => feedByte_inv b ha) bytes st h

theorem screenNew_inv {rows cols : Nat} (hr : 1 ≤ rows) (hc : 1 ≤ cols) :
    ScreenInv rows cols (Screen.new rows cols) := by
  refine ⟨rfl, rfl, hr, hc, ?_, ?_, hr, Nat.zero_le _, ?_⟩
  · simp [Screen.new]
  · intro row hrow
    simp only [Screen.new] at hrow
    rw [List.eq_of_mem_replicate hrow]
    simp
  · intro row hrow
    simp only [Screen.new] at hrow
    rw [List.eq_of_mem_replicate hrow]
    intro hmem
    exact (by decide : ('\n' : Char) ≠ ' ') (List.eq_of_mem_replicate hmem)

theorem append_terminal_output_inv {rows cols : Nat} {t : TermState}
    (raw : List Nat) (h : ScreenInv rows cols t.screen) :
    ScreenInv rows cols (append_terminal_output t raw).screen := by
  unfold append_terminal_output
  exact @feedBytes_inv rows cols (t.parser, t.screen) raw h

theorem feedChunks_inv {rows cols : Nat} {t : TermState}
    (chunks : List (List Nat)) (h : ScreenInv rows cols t.screen) :
    ScreenInv rows cols (feedChunks t chunks).screen := by
  unfold feedChunks
  exact foldl_preserves (P := fun t => ScreenInv rows cols t.screen)
    append_terminal_output (fun a b ha => append_terminal_output_inv b ha)
    chunks t h

/- ### Snapshot line structure lemmas -/

theorem splitOnChar_no_sep {sep : Char} :
    ∀ {l : List Char}, sep ∉ l → splitOnChar sep l = [l]
  | [], _ => rfl
  | c :: rest, h => by
    have hc : ¬ c = sep := fun hh => h (hh ▸ List.mem_cons_self c rest)
    have hrest : sep ∉ rest := fun hh => h (List.mem_cons_of_mem c hh)
    rw [splitOnChar, if_neg hc, splitOnChar_no_sep hrest]

theorem splitOnChar_append {sep : Char} :
    ∀ {r : List Char} (t : List Char), sep ∉ r →
      splitOnChar sep (r ++ sep :: t) = r :: splitOnChar sep t
  | [], t, _ => by
    simp [splitOnChar]
  | c :: rs, t, h => by
    have hc : ¬ c = sep := fun hh => h (hh ▸ List.mem_cons_self c rs)
    have hrs : sep ∉ rs := fun hh => h (List.mem_cons_of_mem c hh)
    rw [List.cons_append, splitOnChar, if_neg hc, splitOnChar_append t hrs]

theorem splitOnChar_joinWith {sep : Char} :
    ∀ {rows : List (List Char)}, rows ≠ [] → (∀ r ∈ rows, sep ∉ r) →
      splitOnChar sep (joinWith sep rows) = rows
  | [], hne, _ => absurd rfl hne
  | [r], _, h => by
    rw [joinWith, splitOnChar_no_sep (h r (by simp))]
  | r :: r2 :: rest, _, h => by
    rw [show joinWith sep (r :: r2 :: rest) = r ++ sep :: joinWith sep (r2 :: rest)
        from rfl,
      splitOnChar_append _ (h r (by simp)),
      splitOnChar_joinWith (List.cons_ne_nil r2 rest)
        (fun x hx => h x (List.mem_cons_of_mem r hx))]

theorem trimTrailingSpaces_length_le (l : List Char) :
    (trimTrailingSpaces l).length ≤ l.length := by
  unfold trimTrailingSpaces
  rw [List.length_reverse]
  calc (l.reverse.dropWhile (fun c => c == ' ')).length
      ≤ l.reverse.length := (List.dropWhile_sublist _).length_le
    _ = l.length := List.length_reverse l

theorem mem_trimTrailingSpaces {l : List Char} {a : Char}
    (h : a ∈ trimTrailingSpaces l) : a ∈ l := by
  unfold trimTrailingSpaces at h
  rw [List.mem_reverse] at h
  have := (List.dropWhile_sublist (l := l.reverse) (fun c => c == ' ')).mem h
  rwa [List.mem_reverse] at this

/-- The snapshot of an invariant-satisfying screen splits back into
exactly its trimmed rows. -/
theorem full_text_lines {rows cols : Nat} {s : Screen}
    (h : ScreenInv rows cols s) :
    splitNl s.full_text = s.grid.map trimTrailingSpaces := by
  obtain ⟨h1, h2, h3, h4, hlen, hrowlen, hcr, hcc, hnl⟩ := h
  unfold Screen.full_text splitNl
  apply splitOnChar_joinWith
  · intro habs
    have := congrArg List.length habs
    rw [List.length_map, hlen] at this
    simp at this
    omega
  · intro r hr
    obtain ⟨orig, horig, rfl⟩ := List.mem_map.mp hr
    intro hmem
    exact hnl orig horig (mem_trimTrailingSpaces hmem)

/- ### Claim theorems -/

/-- C4: for every r, c at least 1 and every sequence of byte chunks fed
through the parser into a fresh screen of that size, the full_text
snapshot has exactly r lines, each at most c characters long after the
trailing-space trim. -/
theorem c4_snapshot_shape (rows cols : Nat) (hr : 1 ≤ rows) (hc : 1 ≤ cols)
    (chunks : List (List Nat)) :
    (splitNl (snapshotAfter rows cols chunks)).length = rows ∧
    ∀ line ∈ splitNl (snapshotAfter rows cols chunks), line.length ≤ cols := by
  have hinv : ScreenInv rows cols (feedChunks (freshTerm rows cols) chunks).screen :=
    feedChunks_inv chunks (screenNew_inv hr hc)
  obtain ⟨h1, h2, h3, h4, hlen, hrowlen, hcr, hcc, hnl⟩ := id hinv
  have hsplit := full_text_lines hinv
  unfold snapshotAfter
  rw [hsplit]
  constructor
  · rw [List.length_map, hlen]
  · intro line hline
    obtain ⟨orig, horig, rfl⟩ := List.mem_map.mp hline
    exact le_of_le_of_eq (trimTrailingSpaces_length_le orig) (hrowlen orig horig)

/-- Witness for C4 at a 2x3 screen and a chunk exercising print, LF and
a clear-screen control sequence. -/
theorem c4_snapshot_shape_witness :
    (splitNl (snapshotAfter 2 3 [[104, 105, 106, 107, 10, 27, 91, 75, 120]])).length
      = 2 :=
  (c4_snapshot_shape 2 3 (by decide) (by decide)
    [[104, 105, 106, 107, 10, 27, 91, 75, 120]]).1

/-- C7: feeding two chunks through the persistent parser state carried
in the task record equals feeding their concatenation, for the whole
terminal state and in particular for the screen snapshot. -/
theorem c7_chunks_concat (t : TermState) (a b : List Nat) :
    append_terminal_output (append_terminal_output t a) b =
      append_terminal_output t (a ++ b) ∧
    (append_terminal_output (append_terminal_output t a) b).screen.full_text =
      (append_terminal_output t (a ++ b)).screen.full_text := by
  have hmain : append_terminal_output (append_terminal_output t a) b =
      append_terminal_output t (a ++ b) := by
    unfold append_terminal_output feedBytes
    simp [List.foldl_append, List.append_assoc]
  exact ⟨hmain, by rw [hmain]⟩

/-- C10: for every screen of size at least 1x1 and every byte sequence,
processing is total and shape-preserving: the grid keeps exactly rows
rows of cols cells (so the guarded subtractions rows - 1 and cols - 1 in
the CSI arms act on positive numbers), and after every byte the cursor
satisfies cursor_row < rows and cursor_col at most cols. -/
theorem c10_feed_preserves_bounds (rows cols : Nat) (hr : 1 ≤ rows)
    (hc : 1 ≤ cols) (bytes : List Nat) :
    (screenAfter rows cols bytes).rows = rows ∧
    (screenAfter rows cols bytes).cols = cols ∧
    (screenAfter rows cols bytes).grid.length = rows ∧
    (∀ row ∈ (screenAfter rows cols bytes).grid, row.length = cols) ∧
    (screenAfter rows cols bytes).cursor_row < rows ∧
    (screenAfter rows cols bytes).cursor_col ≤ cols := by
  have hinv : ScreenInv rows cols (screenAfter rows cols bytes) :=
    @feedBytes_inv rows cols (PState.ground, Screen.new rows cols) bytes
      (screenNew_inv hr hc)
  obtain ⟨h1, h2, h3, h4, hlen, hrowlen, hcr, hcc, hnl⟩ := hinv
  exact ⟨h1, h2, hlen, hrowlen, hcr, hcc⟩

/-- Witness for C10 at a 2x2 screen and bytes exercising print wrap,
cursor-down and clear. -/
theorem c10_feed_preserves_bounds_witness :
    (screenAfter 2 2 [104, 105, 106, 27, 91, 50, 66, 27, 91, 74]).grid.length = 2 :=
  (c10_feed_preserves_bounds 2 2 (by decide) (by decide)
    [104, 105, 106, 27, 91, 50, 66, 27, 91, 74]).2.2.1

/-- C1 (amended): finish_task sets exit_code and ended_at, clears the
runtime, and resolves the terminal status by the source table: Stopped
stays Stopped, Discarded stays Discarded, Ready stays Ready, and any
other status becomes Completed exactly when the exit code is 0 and
Failed otherwise; stop_task sets the status to Ready (not Stopped), so
the next finish_task after a stop preserves Ready regardless of the
code. -/
theorem c1_finish_task_resolution
    (tasks : Registry) (task_id : Nat) (code : Int) (now : Nat)
    (record : TaskRecordM) (h : tasks task_id = some record) :
    ∃ record2 : TaskRecordM,
      (finish_task tasks task_id code now).1 task_id = some record2 ∧
      (finish_task tasks task_id code now).2 = Except.ok () ∧
      record2.runtime = none ∧
      record2.summary.exit_code = some code ∧
      record2.summary.ended_at = some now ∧
      (record.summary.status = .stopped → record2.summary.status = .stopped) ∧
      (record.summary.status = .discarded → record2.summary.status = .discarded) ∧
      (record.summary.status = .ready → record2.summary.status = .ready) ∧
      (record.summary.status ≠ .stopped → record.summary.status ≠ .discarded →
        record.summary.status ≠ .ready →
        record2.summary.status = if code = 0 then .completed else .failed) ∧
      (record.runtime = some () →
        ∃ record3 : TaskRecordM,
          (finish_task (stop_task tasks task_id).1 task_id code now).1 task_id =
            some record3 ∧
          record3.summary.status = .ready) := by
  refine ⟨{ record with
      summary :=
        { record.summary with
          exit_code := some code
          ended_at := some now
          status :=
            match record.summary.status with
            | .stopped => .stopped
            | .discarded => .discarded
            | .ready => .ready
            | _ => if code = 0 then .completed else .failed }
      runtime := none }, ?_, ?_, rfl, rfl, rfl, ?_, ?_, ?_, ?_, ?_⟩
  · simp [finish_task, h, Registry.update]
  · simp [finish_task, h]
  · intro hst
    simp [hst]
  · intro hst
    simp [hst]
  · intro hst
    simp [hst]
  · intro hs1 hs2 hs3
    cases hst : record.summary.status <;> simp_all
  · intro hrt
    refine ⟨{ record with
        summary :=
          { record.summary with
            status := .ready
            exit_code := some code
            ended_at := some now }
        runtime := none }, ?_, rfl⟩
    simp [finish_task, stop_task, h, hrt, Registry.update]

/-- Witness for C1 at a one-task registry holding an Idle running task. -/
theorem c1_finish_task_resolution_witness :
    ∃ record2 : TaskRecordM,
      (finish_task sampleRegistry 1 0 5).1 1 = some record2 ∧
      (finish_task sampleRegistry 1 0 5).2 = Except.ok () ∧
      record2.runtime = none ∧
      record2.summary.exit_code = some 0 ∧
      record2.summary.ended_at = some 5 ∧
      (sampleRunningRecord.summary.status = .stopped →
        record2.summary.status = .stopped) ∧
      (sampleRunningRecord.summary.status = .discarded →
        record2.summary.status = .discarded) ∧
      (sampleRunningRecord.summary.status = .ready →
        record2.summary.status = .ready) ∧
      (sampleRunningRecord.summary.status ≠ .stopped →
        sampleRunningRecord.summary.status ≠ .discarded →
        sampleRunningRecord.summary.status ≠ .ready →
        record2.summary.status = if (0 : Int) = 0 then .completed else .failed) ∧
      (sampleRunningRecord.runtime = some () →
        ∃ record3 : TaskRecordM,
          (finish_task (stop_task sampleRegistry 1).1 1 0 5).1 1 = some record3 ∧
          record3.summary.status = .ready) :=
  c1_finish_task_resolution sampleRegistry 1 0 5 sampleRunningRecord (by rfl)

/-- Counterexample to C1 as stated: after stop_task the status is Ready,
and the following finish_task with exit code 0 leaves Ready, which is
neither the Stopped the claim promises after a stop nor the Completed
its table promises for a zero exit code. -/
theorem c1_claim_counterexample :
    ((stop_task sampleRegistry 1).1 1).map (fun r => r.summary.status) =
      some TaskStatus.ready ∧
    (((finish_task (stop_task sampleRegistry 1).1 1 0 5).1 1).map
        (fun r => r.summary.status)) = some TaskStatus.ready ∧
    TaskStatus.ready ≠ TaskStatus.stopped ∧
    TaskStatus.ready ≠ TaskStatus.completed := by
  refine ⟨rfl, rfl, by decide, by decide⟩

/-- C2 (amended): with the repo resolution, directory check, validation
and rev-parse succeeding, create_task fails with the plain branch-name
message and leaves the registry untouched when branch_name is absent or
trims to empty; a worktree add failure also leaves the registry
untouched; and on success the fresh id maps to a record with status
Ready (not Stopped), no runtime, a blank 40x120 screen, a fresh parser
and an empty terminal buffer, all other ids unchanged. -/
theorem c2_create_task_registration
    (tasks : Registry) (env : CreateEnv) (branch_name : Option (List Char))
    (root commit : List Char)
    (h1 : env.repoRoot = .ok root) (h2 : env.dirOk = .ok ())
    (h3 : env.validOk = .ok ()) (h4 : env.revParse = .ok commit) :
    (branch_name = none →
      create_task tasks env branch_name =
        (tasks, .error (.message ("Branch name is required.".toList)))) ∧
    (∀ b, branch_name = some b → trimChars b = [] →
      create_task tasks env branch_name =
        (tasks, .error (.message ("Branch name is required.".toList)))) ∧
    (∀ b, branch_name = some b → trimChars b ≠ [] → env.worktreeAdd = .error () →
      (create_task tasks env branch_name).1 = tasks ∧
      (create_task tasks env branch_name).2 = .error .gitCommand) ∧
    (∀ b, branch_name = some b → trimChars b ≠ [] → env.worktreeAdd = .ok () →
      (create_task tasks env branch_name).1 env.freshId = some freshTaskRecord ∧
      (create_task tasks env branch_name).2 = .ok env.freshId ∧
      freshTaskRecord.summary.status = .ready ∧
      freshTaskRecord.runtime = none ∧
      freshTaskRecord.screen = Screen.new 40 120 ∧
      freshTaskRecord.terminal_buffer = [] ∧
      ∀ j, j ≠ env.freshId → (create_task tasks env branch_name).1 j = tasks j) := by
  refine ⟨?_, ?_, ?_, ?_⟩
  · intro hb
    simp [create_task, h1, h2, h3, h4, hb]
  · intro b hb htrim
    simp [create_task, h1, h2, h3, h4, hb, Option.filter, htrim]
  · intro b hb htrim hwt
    have hne : (trimChars b).isEmpty = false := by
      cases hh : trimChars b with
      | nil => exact absurd hh htrim
      | cons x xs => rfl
    constructor <;>
      simp [create_task, h1, h2, h3, h4, hb, hwt, Option.filter, hne]
  · intro b hb htrim hwt
    have hne : (trimChars b).isEmpty = false := by
      cases hh : trimChars b with
      | nil => exact absurd hh htrim
      | cons x xs => rfl
    refine ⟨?_, ?_, rfl, rfl, rfl, rfl, ?_⟩
    · simp [create_task, h1, h2, h3, h4, hb, hwt, Option.filter, hne,
        Registry.update, freshTaskRecord]
    · simp [create_task, h1, h2, h3, h4, hb, hwt, Option.filter, hne]
    · intro j hj
      simp [create_task, h1, h2, h3, h4, hb, hwt, Option.filter, hne,
        Registry.update, hj]

/-- Witness for C2: a successful environment with a padded branch name
registers the fresh record under id 7. -/
theorem c2_create_task_registration_witness :
    (create_task Registry.empty sampleCreateEnv (some (" feat ".toList))).1
        sampleCreateEnv.freshId = some freshTaskRecord ∧
    (create_task Registry.empty sampleCreateEnv (some (" feat ".toList))).2 =
      .ok sampleCreateEnv.freshId ∧
    freshTaskRecord.summary.status = .ready ∧
    freshTaskRecord.runtime = none ∧
    freshTaskRecord.screen = Screen.new 40 120 ∧
    freshTaskRecord.terminal_buffer = [] ∧
    ∀ j, j ≠ sampleCreateEnv.freshId →
      (create_task Registry.empty sampleCreateEnv (some (" feat ".toList))).1 j =
        Registry.empty j :=
  (c2_create_task_registration Registry.empty sampleCreateEnv
      (some (" feat ".toList)) [] [] rfl rfl rfl rfl).2.2.2
    (" feat ".toList) rfl (by decide) rfl

/-- Counterexample to C2 as stated: a successful create_task inserts a
record whose status is Ready, not the Stopped the claim names. -/
theorem c2_claim_counterexample :
    ((create_task Registry.empty sampleCreateEnv (some ("b".toList))).1 7).map
        (fun r => r.summary.status) = some TaskStatus.ready ∧
    TaskStatus.ready ≠ TaskStatus.stopped := by
  refine ⟨rfl, by decide⟩

/-- C3: discard_task of a registered task always succeeds and always
removes the registry entry, whatever the outcomes of the best-effort
worktree, branch and filesystem teardown steps. -/
theorem c3_discard_removes_entry (tasks : Registry) (task_id : Nat)
    (env : DiscardEnv) (record : TaskRecordM)
    (h : tasks task_id = some record) :
    (discard_task tasks task_id env).1 task_id = none ∧
    (discard_task tasks task_id env).2 = Except.ok () := by
  constructor <;> simp [discard_task, h, Registry.update]

/-- Witness for C3 on the sample registry, with every teardown step
failing. -/
theorem c3_discard_removes_entry_witness :
    (discard_task sampleRegistry 1
        { worktreeRemoveOk := false, branchDeleteOk := false, fsRemoveOk := false }).1
        1 = none ∧
    (discard_task sampleRegistry 1
        { worktreeRemoveOk := false, branchDeleteOk := false, fsRemoveOk := false }).2 =
      Except.ok () :=
  c3_discard_removes_entry sampleRegistry 1
    { worktreeRemoveOk := false, branchDeleteOk := false, fsRemoveOk := false }
    sampleRunningRecord (by rfl)

/- ### Codex startup latch lemmas -/

theorem codexStep_enter_mono (st : CodexStartupState) (e : CodexEvent)
    (h : st.sent_resume_enter = true) :
    (codexStep st e).1.sent_resume_enter = true := by
  cases e with
  | chunk t lk =>
    simp only [codexStep, handle_startup_sequence]
    split
    · rename_i hcond
      simp [h] at hcond
    · split
      · exact h
      · exact h
  | recheck t lk =>
    simp only [codexStep, no_sessions_recheck]
    split
    · rfl
    · exact h

theorem codexStep_no13 (st : CodexStartupState) (e : CodexEvent)
    (h : st.sent_resume_enter = true) :
    ((codexStep st e).2.count 13) = 0 := by
  cases e with
  | chunk t lk =>
    simp only [codexStep, handle_startup_sequence]
    split
    · rename_i hcond
      simp [h] at hcond
    · split
      · rfl
      · rfl
  | recheck t lk =>
    simp only [codexStep, no_sessions_recheck]
    split
    · cases lk <;> simp
    · rfl

theorem codexStep_13_latch (st : CodexStartupState) (e : CodexEvent) :
    ((codexStep st e).2.count 13 = 0) ∨
    ((codexStep st e).2.count 13 = 1 ∧ (codexStep st e).1.sent_resume_enter = true) := by
  cases e with
  | chunk t lk =>
    simp only [codexStep, handle_startup_sequence]
    split
    · cases lk
      · left
        rfl
      · right
        exact ⟨rfl, rfl⟩
    · split
      · left
        rfl
      · left
        rfl
  | recheck t lk =>
    simp only [codexStep, no_sessions_recheck]
    split
    · cases lk <;> simp
    · left
      rfl

theorem codexRun_no13 :
    ∀ (evs : List CodexEvent) (st : CodexStartupState),
      st.sent_resume_enter = true → ((codexRun st evs).2.count 13) = 0
  | [], _, _ => rfl
  | e :: rest, st, h => by
    simp only [codexRun]
    rw [List.count_append]
    rw [codexStep_no13 st e h,
      codexRun_no13 rest (codexStep st e).1 (codexStep_enter_mono st e h)]

theorem codexRun_count13_le :
    ∀ (evs : List CodexEvent) (st : CodexStartupState),
      ((codexRun st evs).2.count 13) ≤ 1
  | [], _ => by simp [codexRun]
  | e :: rest, st => by
    simp only [codexRun]
    rw [List.count_append]
    rcases codexStep_13_latch st e with h0 | ⟨h1, hl⟩
    · rw [h0]
      simpa using codexRun_count13_le rest (codexStep st e).1
    · rw [h1, codexRun_no13 rest (codexStep st e).1 hl]

/-- C5: across any whole Codex session event trace from the fresh latch
state, the startup automation writes CR (13) to the PTY at most once; a
CR is written by a chunk only when the snapshot contains the resume
prompt, does not contain the no-sessions text, and neither latch is set;
the delayed no-sessions re-check never writes CR. -/
theorem c5_startup_enter_once (evs : List CodexEvent)
    (st : CodexStartupState) (t : List Char) (lk : Bool) :
    ((codexRun freshStartup evs).2.count 13 ≤ 1) ∧
    (13 ∈ (handle_startup_sequence st t lk).2 →
      listContains t ("resume a previous session".toList) = true ∧
      listContains t ("no sessions yet".toList) = false ∧
      st.sent_resume_enter = false ∧ st.sent_no_sessions_escape = false) ∧
    ((no_sessions_recheck st t lk).2.count 13 = 0) := by
  refine ⟨codexRun_count13_le evs freshStartup, ?_, ?_⟩
  · intro hmem
    simp only [handle_startup_sequence] at hmem
    by_cases hcond : (listContains t ("resume a previous session".toList) &&
        !listContains t ("no sessions yet".toList) && !st.sent_resume_enter &&
        !st.sent_no_sessions_escape) = true
    · rw [if_pos hcond] at hmem
      simp only [Bool.and_eq_true, Bool.not_eq_true'] at hcond
      exact ⟨hcond.1.1.1, hcond.1.1.2, hcond.1.2, hcond.2⟩
    · exfalso
      rw [if_neg hcond] at hmem
      split at hmem <;> simp at hmem
  · simp only [no_sessions_recheck]
    by_cases hc : listContains t ("no sessions yet".toList) = true
    · rw [if_pos hc]
      cases lk <;> rfl
    · rw [if_neg hc]
      rfl

/-- Witness for C5: a session that sees the resume prompt twice writes
CR exactly once, and the per-chunk condition holds at the fresh state. -/
theorem c5_startup_enter_once_witness :
    ((codexRun freshStartup
        [CodexEvent.chunk ("resume a previous session".toList) true,
         CodexEvent.chunk ("resume a previous session".toList) true]).2.count 13 ≤ 1) ∧
    (listContains ("resume a previous session".toList)
        ("resume a previous session".toList) = true ∧
      listContains ("resume a previous session".toList)
        ("no sessions yet".toList) = false ∧
      freshStartup.sent_resume_enter = false ∧
      freshStartup.sent_no_sessions_escape = false) :=
  ⟨(c5_startup_enter_once
      [CodexEvent.chunk ("resume a previous session".toList) true,
       CodexEvent.chunk ("resume a previous session".toList) true]
      freshStartup ("resume a previous session".toList) true).1,
    (c5_startup_enter_once
      [CodexEvent.chunk ("resume a previous session".toList) true,
       CodexEvent.chunk ("resume a previous session".toList) true]
      freshStartup ("resume a previous session".toList) true).2.1 (by decide)⟩

/-- C6 (amended): status_from_output emits only on change: the Codex
agent returns Some exactly when the status inferred from the accumulated
screen differs from last_status (the second identical chunk yields None
precisely when the inferred status is unchanged), and the Copilot agent
fed the same chunk twice from fresh emits Working once and then None. -/
theorem c6_status_only_on_change (raw : List Nat) (st : CodexAgentState)
    (lk : Bool) :
    ((copilot_status_from_output freshCopilotAgent raw).1 =
        some TaskStatus.working ∧
      (copilot_status_from_output
          (copilot_status_from_output freshCopilotAgent raw).2 raw).1 = none) ∧
    ((codex_status_from_output st raw lk).1 =
      if st.last_status = some (codexInferred st raw) then none
      else some (codexInferred st raw)) := by
  refine ⟨⟨?_, ?_⟩, ?_⟩
  · simp [copilot_status_from_output, freshCopilotAgent]
  · simp [copilot_status_from_output, freshCopilotAgent]
  · simp only [codex_status_from_output, codexInferred]
    by_cases hp : listContains
        (lowerChars (feedBytes (st.parser, st.screen) raw).2.full_text)
        APPROVAL_PROMPT = true
    · simp only [hp, if_true, ite_true]
      by_cases hl : st.last_status = some TaskStatus.awaitingApproval <;>
        simp [hl]
    · simp only [Bool.not_eq_true] at hp
      simp only [hp, if_false, ite_false, Bool.false_eq_true]
      by_cases hl : st.last_status = some TaskStatus.working <;> simp [hl]

/-- Counterexample to C6 as stated: a chunk that is a rotation of the
approval prompt, fed twice to a fresh Codex agent, yields Working on the
first call and AwaitingApproval on the second, two notifications for two
identical chunks. -/
theorem c6_claim_counterexample :
    (codex_status_from_output freshCodexAgent promptRotationChunk true).1 =
      some TaskStatus.working ∧
    (codex_status_from_output
        (codex_status_from_output freshCodexAgent promptRotationChunk true).2.1
        promptRotationChunk true).1 = some TaskStatus.awaitingApproval := by
  constructor <;> rfl

/- ### Session discovery lemmas -/

theorem tsLeB_refl (a : Option Nat) : tsLeB a a = true := by
  cases a <;> simp [tsLeB]

theorem tsLeB_trans {a b c : Option Nat} (h1 : tsLeB a b = true)
    (h2 : tsLeB b c = true) : tsLeB a c = true := by
  cases a <;> cases b <;> cases c <;> simp_all [tsLeB]
  all_goals omega

theorem beats_true_ge {cand b : SessionCandidateM}
    (h : candidateBeats cand (some b) = true) :
    tsLeB b.timestamp cand.timestamp = true := by
  obtain ⟨cid, cts⟩ := cand
  obtain ⟨bid, bts⟩ := b
  cases cts <;> cases bts <;> simp_all [candidateBeats, tsLeB]
  all_goals omega

theorem beats_false_le {cand b : SessionCandidateM}
    (h : candidateBeats cand (some b) = false) :
    tsLeB cand.timestamp b.timestamp = true := by
  obtain ⟨cid, cts⟩ := cand
  obtain ⟨bid, bts⟩ := b
  cases cts <;> cases bts <;> simp_all [candidateBeats, tsLeB]

theorem beats_none (cand : SessionCandidateM) :
    candidateBeats cand none = true := by
  obtain ⟨cid, cts⟩ := cand
  cases cts <;> simp [candidateBeats]

theorem dirFold_ge_start (pts : List Char → Option Nat) (cwd : List Char) :
    ∀ (files : List SessionFile) (b0 b : SessionCandidateM),
      files.foldl (dirScanStep pts cwd) (some b0) = some b →
      tsLeB b0.timestamp b.timestamp = true
  | [], b0, b, h => by
    simp at h
    rw [h]
    exact tsLeB_refl _
  | f :: fs, b0, b, h => by
    simp only [List.foldl_cons] at h
    by_cases hf : f.isFile = true
    · cases hp : parse_session_file pts f cwd with
      | none =>
        rw [show dirScanStep pts cwd (some b0) f = some b0 by
          simp [dirScanStep, hf, hp]] at h
        exact dirFold_ge_start pts cwd fs b0 b h
      | some cand =>
        by_cases hb : candidateBeats cand (some b0) = true
        · rw [show dirScanStep pts cwd (some b0) f = some cand by
            simp [dirScanStep, hf, hp, hb]] at h
          exact tsLeB_trans (beats_true_ge hb)
            (dirFold_ge_start pts cwd fs cand b h)
        · rw [show dirScanStep pts cwd (some b0) f = some b0 by
            simp [dirScanStep, hf, hp, hb]] at h
          exact dirFold_ge_start pts cwd fs b0 b h
    · rw [show dirScanStep pts cwd (some b0) f = some b0 by
        simp [dirScanStep, hf]] at h
      exact dirFold_ge_start pts cwd fs b0 b h

theorem dirFold_mem (pts : List Char → Option Nat) (cwd : List Char) :
    ∀ (files : List SessionFile) (b0 : Option SessionCandidateM)
      (b : SessionCandidateM),
      files.foldl (dirScanStep pts cwd) b0 = some b →
      b0 = some b ∨ IsCand pts cwd files b
  | [], b0, b, h => by
    simp at h
    exact Or.inl h
  | f :: fs, b0, b, h => by
    simp only [List.foldl_cons] at h
    rcases dirFold_mem pts cwd fs (dirScanStep pts cwd b0 f) b h with h1 | h1
    · by_cases hf : f.isFile = true
      · cases hp : parse_session_file pts f cwd with
        | none =>
          rw [show dirScanStep pts cwd b0 f = b0 by
            simp [dirScanStep, hf, hp]] at h1
          exact Or.inl h1
        | some cand =>
          by_cases hb : candidateBeats cand b0 = true
          · rw [show dirScanStep pts cwd b0 f = some cand by
              simp [dirScanStep, hf, hp, hb]] at h1
            right
            refine ⟨f, by simp, hf, ?_⟩
            rw [hp, h1]
          · rw [show dirScanStep pts cwd b0 f = b0 by
              simp [dirScanStep, hf, hp, hb]] at h1
            exact Or.inl h1
      · rw [show dirScanStep pts cwd b0 f = b0 by simp [dirScanStep, hf]] at h1
        exact Or.inl h1
    · right
      obtain ⟨g, hg, hgf, hgp⟩ := h1
      exact ⟨g, List.mem_cons_of_mem f hg, hgf, hgp⟩

theorem dirFold_max (pts : List Char → Option Nat) (cwd : List Char) :
    ∀ (files : List SessionFile) (b0 : Option SessionCandidateM)
      (b : SessionCandidateM),
      files.foldl (dirScanStep pts cwd) b0 = some b →
      ∀ c2, IsCand pts cwd files c2 → tsLeB c2.timestamp b.timestamp = true
  | [], _, _, _, c2, hc2 => by
    obtain ⟨g, hg, _, _⟩ := hc2
    simp at hg
  | f :: fs, b0, b, h, c2, hc2 => by
    simp only [List.foldl_cons] at h
    obtain ⟨g, hg, hgf, hgp⟩ := hc2
    rcases List.mem_cons.mp hg with rfl | hgfs
    · by_cases hb : candidateBeats c2 b0 = true
      · rw [show dirScanStep pts cwd b0 g = some c2 by
          simp [dirScanStep, hgf, hgp, hb]] at h
        exact dirFold_ge_start pts cwd fs c2 b h
      · cases hb0 : b0 with
        | none =>
          rw [hb0] at hb
          exact absurd (beats_none c2) hb
        | some v =>
          subst hb0
          rw [show dirScanStep pts cwd (some v) g = some v by
            simp [dirScanStep, hgf, hgp, hb]] at h
          have hbf : candidateBeats c2 (some v) = false :=
            Bool.not_eq_true _ ▸ eq_false_of_ne_true hb
          exact tsLeB_trans (beats_false_le hbf)
            (dirFold_ge_start pts cwd fs v b h)
    · exact dirFold_max pts cwd fs (dirScanStep pts cwd b0 f) b h c2
        ⟨g, hgfs, hgf, hgp⟩

theorem sessionFold_sid (pts : List Char → Option Nat) :
    ∀ (lines : List SessionLine) (sid0 : Option (List Char)) (ts0 : Option Nat),
      (lines.foldl (sessionLineStep pts) (sid0, ts0)).1 =
        match sid0 with
        | some s => some s
        | none => lines.findSome? lineSessionId
  | [], sid0, _ => by cases sid0 <;> simp
  | l :: rest, sid0, ts0 => by
    simp only [List.foldl_cons]
    cases sid0 with
    | some s =>
      have hstep : (sessionLineStep pts (some s, ts0) l).1 = some s := by
        cases hp : l.parsed <;> simp [sessionLineStep, hp]
      rcases hs : (sessionLineStep pts (some s, ts0) l) with ⟨s1, t1⟩
      rw [hs] at hstep
      simp only at hstep
      subst hstep
      rw [sessionFold_sid pts rest _ _]
    | none =>
      have hstep : (sessionLineStep pts (none, ts0) l).1 = lineSessionId l := by
        cases hp : l.parsed <;> simp [sessionLineStep, lineSessionId, hp]
      rcases hs : (sessionLineStep pts (none, ts0) l) with ⟨s1, t1⟩
      rw [hs] at hstep
      simp only at hstep
      subst hstep
      rw [sessionFold_sid pts rest _ _]
      cases hl : lineSessionId l with
      | some id => simp [List.findSome?_cons, hl]
      | none => simp [List.findSome?_cons, hl]

/-- C8 (amended): a candidate file is one whose full text contains the
canonical working-copy path; its session id is the data.sessionId of
the first session.start line that carries one (a session.start line
without data.sessionId is skipped), falling back to the file stem; the
directory scan returns the session id of a candidate whose timestamp is
maximal, candidates with timestamps beating those without; and the
legacy directory is consulted exactly when the primary one yields no
candidate. -/
theorem c8_session_discovery (pts : List Char → Option Nat)
    (primary legacy files : List SessionFile) (cwd : List Char)
    (f : SessionFile) (cand : SessionCandidateM) (sid : List Char) :
    (parse_session_file pts f cwd = some cand →
      listContains f.content cwd = true ∧
      (match f.lines.findSome? lineSessionId with
       | some id => cand.session_id = id
       | none => f.stem = some cand.session_id)) ∧
    (find_latest_session_in_dir pts files cwd = some sid →
      ∃ c, IsCand pts cwd files c ∧ c.session_id = sid ∧
        ∀ c2, IsCand pts cwd files c2 →
          tsLeB c2.timestamp c.timestamp = true) ∧
    (find_latest_session_in_dir pts primary cwd = some sid →
      find_latest_session_id pts primary legacy cwd = some sid) ∧
    (find_latest_session_in_dir pts primary cwd = none →
      find_latest_session_id pts primary legacy cwd =
        find_latest_session_in_dir pts legacy cwd) := by
  refine ⟨?_, ?_, ?_, ?_⟩
  · intro h
    unfold parse_session_file at h
    by_cases hc : listContains f.content cwd = true
    · refine ⟨hc, ?_⟩
      rw [if_neg (by simp [hc])] at h
      have hsid := sessionFold_sid pts f.lines none none
      rcases hfold : f.lines.foldl (sessionLineStep pts) (none, none)
        with ⟨s1, t1⟩
      rw [hfold] at h hsid
      simp only at hsid
      subst hsid
      cases hfind : f.lines.findSome? lineSessionId with
      | some id =>
        rw [hfind] at h
        simp only at h
        cases h
        rfl
      | none =>
        rw [hfind] at h
        simp only at h
        cases hstem : f.stem with
        | none =>
          rw [hstem] at h
          cases h
        | some st =>
          rw [hstem] at h
          cases h
          rfl
    · rw [if_pos (by simp [Bool.not_eq_true] at hc; simp [hc])] at h
      cases h
  · intro h
    unfold find_latest_session_in_dir at h
    rcases Option.map_eq_some'.mp h with ⟨c, hcfold, hcs⟩
    rcases dirFold_mem pts cwd files none c hcfold with habs | hmem
    · cases habs
    · exact ⟨c, hmem, hcs, dirFold_max pts cwd files none c hcfold⟩
  · intro h
    unfold find_latest_session_id
    rw [h]
  · intro h
    unfold find_latest_session_id
    rw [h]

/-- Witness for C8: the two-session.start file is a candidate and its
id comes from the second session.start line; a one-file directory scan
returns it as the maximal candidate. -/
theorem c8_session_discovery_witness :
    (listContains sessionFileTwoStarts.content ("/work/x".toList) = true ∧
      (match sessionFileTwoStarts.lines.findSome? lineSessionId with
       | some id => ("b".toList) = id
       | none => sessionFileTwoStarts.stem = some ("b".toList))) ∧
    (∃ c, IsCand (fun _ => none) ("/work/x".toList) [sessionFileTwoStarts] c ∧
      c.session_id = "b".toList ∧
      ∀ c2, IsCand (fun _ => none) ("/work/x".toList) [sessionFileTwoStarts] c2 →
        tsLeB c2.timestamp c.timestamp = true) :=
  ⟨(c8_session_discovery (fun _ => none) [] [] [sessionFileTwoStarts]
      ("/work/x".toList) sessionFileTwoStarts
      { session_id := "b".toList, timestamp := none } ("b".toList)).1
      (by decide),
    (c8_session_discovery (fun _ => none) [] [] [sessionFileTwoStarts]
      ("/work/x".toList) sessionFileTwoStarts
      { session_id := "b".toList, timestamp := none } ("b".toList)).2.1
      (by decide)⟩

/-- Counterexample to C8 as stated: in a file whose first session.start
line has no data.sessionId, the code takes the id of a later
session.start line instead of the claimed fallback to the file stem. -/
theorem c8_claim_counterexample :
    parse_session_file (fun _ => none) sessionFileTwoStarts ("/work/x".toList) =
      some { session_id := "b".toList, timestamp := none } ∧
    (sessionFileTwoStarts.lines.head?.map (fun l => l.type_field)) =
      some (some ("session.start".toList)) ∧
    (sessionFileTwoStarts.lines.head?.map (fun l => l.data_session_id)) =
      some none ∧
    sessionFileTwoStarts.stem = some ("stem0".toList) ∧
    ("b".toList) ≠ ("stem0".toList) := by
  refine ⟨by decide, by decide, by decide, by decide, by decide⟩

/-- C9 (amended): format_title_from_branch takes the last '/'-segment,
extracts the first maximal run of at least 3 ASCII digits bracketed at
the front, replaces the run by a single space before splitting the
remainder on whitespace, '-' and '_' into title-cased words joined by
single spaces, and falls back to the whole segment (with '/' also a
separator) when no words remain; the label is trimmed. -/
theorem c9_title_formatter (branch : List Char) :
    format_title_from_branch branch = format_title_amendedC9 branch := by
  unfold format_title_from_branch format_title_amendedC9 extract_task_and_label
    titleWords
  cases h : scanDigitRun (lastSegment branch) 0 with
  | none => simp [h]
  | some r =>
    obtain ⟨s, e⟩ := r
    simp [h]

/-- Counterexample to C9 as stated: on the branch name 123 the code
falls back to the digits themselves as the label, and on a123b the
removed run acts as a word separator; the claimed formatter (split the
remaining text on '-' and '_' only) produces neither. -/
theorem c9_claim_counterexample :
    format_title_from_branch ("123".toList) = ("[123] 123".toList) ∧
    format_title_claimC9 ("123".toList) = ("[123] ".toList) ∧
    ("[123] 123".toList) ≠ ("[123] ".toList) ∧
    format_title_from_branch ("a123b".toList) = ("[123] A B".toList) ∧
    format_title_claimC9 ("a123b".toList) = ("[123] Ab".toList) ∧
    ("[123] A B".toList) ≠ ("[123] Ab".toList) := by
  refine ⟨by decide, by decide, by decide, by decide, by decide, by decide⟩

end Illuc
